import Mathlib

/-!
Shallow embedding of the `sema` status-bar widget (`src/main.rs`) and a
verification of the specification claims about the bar-matrix rendering
and refresh pipeline.

Conventions of the embedding:
* Rust `f32` fractions are modelled as exact rationals (`ℚ`); every concrete
  value appearing in the claims is exactly representable in `f32`, and the
  floor/saturating-cast arithmetic is modelled exactly.
* A Rust panic (failed `expect`, out-of-bounds slice index) is modelled as
  `none` / `Except.error`: a function that can panic returns `Option`/`Except`.
* The external sampler calls (`wifi`, `bluetooth`, `mic`, `volume`,
  `battery`) are modelled by their outcomes: an `Except String v` input for
  each, `Except.error` standing for a failed (panicking) sampler call.
-/

namespace Sema

/-! ## Constants (src/main.rs lines 26-53) -/

abbrev REFRESH_RATE : ℕ := 2

abbrev SCALE_FACTOR : ℕ := 2

abbrev N_BARS : ℕ := 3

abbrev BAR_THICKNESS : ℕ := 2

abbrev MARGIN : ℕ := 2

abbrev INNER_HEIGHT : ℕ := 16

abbrev INNER_WIDTH : ℕ := N_BARS * BAR_THICKNESS

abbrev WIN_HEIGHT : ℕ := INNER_HEIGHT + MARGIN

abbrev WIN_WIDTH : ℕ := INNER_WIDTH + MARGIN

abbrev BAR_LENGTH : ℕ := INNER_HEIGHT * SCALE_FACTOR

abbrev BAR_GIRTH : ℕ := BAR_THICKNESS * SCALE_FACTOR

abbrev REAL_WIDTH : ℕ := WIN_WIDTH * SCALE_FACTOR

/-- Single RGBA pixel (`type Rgba = [u8; 4]`), as a 4-tuple of channel
values. -/
abbrev Rgba : Type := ℕ × ℕ × ℕ × ℕ

/-- A bar (`type Bar = [Rgba; BAR_LENGTH]`), as a total function from the
pixel index. -/
abbrev Bar : Type := Fin BAR_LENGTH → Rgba

/-- The canvas (`type Matrix = [Bar; REAL_WIDTH]`). -/
abbrev Matrix : Type := Fin REAL_WIDTH → Bar

/-! ## The palette (src/main.rs lines 64-69) -/

def COLOR_URGENT : Rgba := (0xcf, 0x49, 0x55, 0xff)

def COLOR_WARN : Rgba := (0xfb, 0xc0, 0x11, 0xff)

def COLOR_OK : Rgba := (0x0a, 0x8c, 0x6c, 0xff)

def COLOR_BG : Rgba := (0x16, 0x16, 0x16, 0xff)

def COLOR_MUTE : Rgba := (0x77, 0x77, 0x77, 0xff)

def COLOR_NORMAL : Rgba := (0x25, 0x6c, 0xcf, 0xff)

/-- The zero pixel `[0; 4]` used to initialise buffers in `main` and
`refresh`. -/
def ZERO_RGBA : Rgba := (0, 0, 0, 0)

/-! ## The bar encoder (src/main.rs lines 90-95)

```rust
fn bar(percent: f32, fill_color: Rgba) -> Bar {
    let filled = (BAR_LENGTH as f32 * percent).floor() as usize;
    let mut bar = [fill_color; BAR_LENGTH];
    bar[filled..].fill(COLOR_BG);
    bar
}
```

`(… ).floor() as usize` is the Rust saturating float-to-int cast: a negative
value becomes `0` (modelled by `Int.toNat` of the floor).  The slice
`bar[filled..]` panics when `filled > BAR_LENGTH`, so the encoder is
modelled as returning `Option`, `none` standing for the panic.  The length
is kept as a parameter `L` (the source instantiates it with `BAR_LENGTH`)
so that the specification properties quantified over all lengths L can be stated.
-/

/-- `(L as f32 * percent).floor() as usize` — the number of filled pixels. -/
def barFilledGen (L : ℕ) (percent : ℚ) : ℕ :=
  (Int.floor ((L : ℚ) * percent)).toNat

/-- The bar encoder at an arbitrary length `L`. -/
def barGen (L : ℕ) (percent : ℚ) (fill_color : Rgba) : Option (Fin L → Rgba) :=
  let filled := barFilledGen L percent
  if filled ≤ L then
    some (fun i => if i.val < filled then fill_color else COLOR_BG)
  else
    none

/-- `fn bar(percent: f32, fill_color: Rgba) -> Bar`. -/
def bar (percent : ℚ) (fill_color : Rgba) : Option Bar :=
  barGen BAR_LENGTH percent fill_color

/-- Filled-pixel count at the bar length used by the source. -/
def barFilled (percent : ℚ) : ℕ :=
  barFilledGen BAR_LENGTH percent

/-- The tail of `fn volume()` (src/main.rs lines 135-152): the regex
`(\d{1,3})%` yields an integer percentage of at most three digits, which is
divided by `100.0` and passed to `bar` with the mute-dependent fill
color. -/
def volumeBar (muted : Bool) (vol : ℕ) : Option Bar :=
  bar ((vol : ℚ) / 100) (if muted then COLOR_MUTE else COLOR_NORMAL)

/-! ## The composite bar and `refresh` (src/main.rs lines 266-288) -/

/-- `bar[lo..hi].fill(c)` on a `Bar`-sized buffer (all ranges used by
`refresh` are in bounds, so no panic case is needed). -/
def fillRange (b : Bar) (lo hi : ℕ) (c : Rgba) : Bar :=
  fun i => if lo ≤ i.val ∧ i.val < hi then c else b i

abbrev WIFI_LENGTH : ℕ := 10

abbrev BT_LENGTH : ℕ := 6

abbrev MIC_LENGTH : ℕ := 6

/-- The first (composite) bar built at the top of `refresh`:
`[0; 4]`-initialised buffer, then `bar[0..10].fill(wifi())`,
`bar[26..32].fill(bluetooth())`, `bar[19..25].fill(mic())`. -/
def compositeBar (wifiColor btColor micColor : Rgba) : Bar :=
  fillRange
    (fillRange
      (fillRange (fun _ => ZERO_RGBA) 0 WIFI_LENGTH wifiColor)
      (BAR_LENGTH - BT_LENGTH) BAR_LENGTH btColor)
    (BAR_LENGTH - BT_LENGTH - MIC_LENGTH - 1) (BAR_LENGTH - BT_LENGTH - 1) micColor

/-- Outcomes of the five external sampler calls made by `refresh` (in
source order: wifi, bluetooth, mic, volume, battery).  `Except.error`
models a sampler call that panics/fails. -/
structure Samplers where
  wifi : Except String Rgba
  bluetooth : Except String Rgba
  mic : Except String Rgba
  volume : Except String Bar
  battery : Except String Bar

/-- `mat[lo..hi].fill(b)`. -/
def fillRows (m : Matrix) (lo hi : ℕ) (b : Bar) : Matrix :=
  fun r => if lo ≤ r.val ∧ r.val < hi then b else m r

/-- The array `[bar, volume(), battery()]` of src/main.rs lines 279-283. -/
def barsOf (comp vol batt : Bar) : Fin N_BARS → Bar
  | ⟨0, _⟩ => comp
  | ⟨1, _⟩ => vol
  | ⟨2, _⟩ => batt

/-- The placement loop of `refresh`:
```rust
for (i, bar) in bars.into_iter().enumerate() {
    let x = i * BAR_GIRTH;
    mat[x..(x + BAR_GIRTH - 1)].fill(bar);
}
``` -/
def placeBars (bars : Fin N_BARS → Bar) (mat : Matrix) : Matrix :=
  (List.finRange N_BARS).foldl
    (fun m i => fillRows m (i.val * BAR_GIRTH) (i.val * BAR_GIRTH + BAR_GIRTH - 1) (bars i))
    mat

/-- `fn refresh(mat: &mut Matrix)`, with the sampler outcomes passed in.
A panicking sampler (`Except.error`) aborts the whole refresh, exactly as
the `cmd`/`expect` panics in the source do; on success the updated matrix is
returned. -/
def refresh (s : Samplers) (mat : Matrix) : Except String Matrix := do
  let w ← s.wifi
  let bt ← s.bluetooth
  let mc ← s.mic
  let comp := compositeBar w bt mc
  let vol ← s.volume
  let batt ← s.battery
  pure (placeBars (barsOf comp vol batt) mat)

/-- `let mut matrix: Matrix = [[[0; 4]; BAR_LENGTH]; REAL_WIDTH];`
(src/main.rs line 203). -/
def initialMatrix : Matrix := fun _ _ => ZERO_RGBA

/-! ## Rotation and blit (src/main.rs lines 291-306) -/

/-- The iterator of `fn rot90ccw(mat: &Matrix)`, generalised over the two
dimensions exactly as the source reads them (`rows = mat.len()`,
`cols = mat[0].len()`):
`(0..cols).rev().flat_map(|col| (0..rows).map(|row| &mat[row][col]))`. -/
def rot90ccwGen {α : Type} (rows cols : ℕ) (mat : ℕ → ℕ → α) : List α :=
  ((List.range cols).reverse).flatMap fun col =>
    (List.range rows).map fun row => mat row col

/-- `rot90ccw` at the concrete `Matrix` type of the source. -/
def rot90ccw (mat : Matrix) : List Rgba :=
  rot90ccwGen REAL_WIDTH BAR_LENGTH fun r c =>
    if h : r < REAL_WIDTH ∧ c < BAR_LENGTH then mat ⟨r, h.1⟩ ⟨c, h.2⟩ else COLOR_BG

/-! ## Concrete inputs used to settle the claims -/

/-- The example matrix the specification uses for the rotation: 2 logical columns
of 4 pixels, column 0 all red (`COLOR_URGENT`), column 1 all blue
(`COLOR_NORMAL`); first index = column (bar), second = row (pixel). -/
def exMat : ℕ → ℕ → Rgba := fun c _ => if c = 0 then COLOR_URGENT else COLOR_NORMAL

/-- A sentinel-valued prior matrix, to observe which rows a refresh
writes. -/
def matNines : Matrix := fun _ _ => (9, 9, 9, 9)

/-- Sampler outcomes in which exactly the battery sampler fails. -/
def samplersBatteryFail : Samplers :=
  ⟨Except.ok COLOR_OK, Except.ok COLOR_NORMAL, Except.ok COLOR_BG,
    Except.ok (fun _ => COLOR_NORMAL), Except.error "Failed to read battery info"⟩

/-- All-successful sampler outcomes with distinguishable bar colors:
wifi `COLOR_OK`, bluetooth `COLOR_NORMAL`, mic `COLOR_BG`, the volume bar
constantly `COLOR_MUTE`, the battery bar constantly `COLOR_WARN`. -/
def samplersDistinct : Samplers :=
  ⟨Except.ok COLOR_OK, Except.ok COLOR_NORMAL, Except.ok COLOR_BG,
    Except.ok (fun _ => COLOR_MUTE), Except.ok (fun _ => COLOR_WARN)⟩

/-- Another all-successful set of sampler outcomes: wifi `COLOR_WARN`,
bluetooth `COLOR_MUTE`, mic `COLOR_URGENT`, volume bar constantly
`COLOR_OK`, battery bar constantly `COLOR_NORMAL`. -/
def samplersDistinctB : Samplers :=
  ⟨Except.ok COLOR_WARN, Except.ok COLOR_MUTE, Except.ok COLOR_URGENT,
    Except.ok (fun _ => COLOR_OK), Except.ok (fun _ => COLOR_NORMAL)⟩

/-! ## The event loop body (src/main.rs lines 233-257) -/

/-- The events dispatched by the `event_loop.run` closure. -/
inductive LoopEvent : Type
  | userRefresh
  | redrawRequested
  | closeRequested
  | otherEvent

/-- Result of handling one event: the matrix afterwards, the frame blitted
and presented (if any), and whether the loop exits. -/
structure StepResult where
  matrix : Matrix
  presented : Option (List Rgba)
  exits : Bool

/-- One dispatch of the `event_loop.run` closure, with the sampler
outcomes of this tick passed in.  `Event::UserEvent(Refresh)` re-samples
(`refresh`) then draws; `WindowEvent::RedrawRequested` draws the current
matrix without re-sampling; `CloseRequested` exits; anything else is
ignored. -/
def handleEvent (s : Samplers) (ev : LoopEvent) (mat : Matrix) :
    Except String StepResult :=
  match ev with
  | .userRefresh => do
      let m2 ← refresh s mat
      pure ⟨m2, some (rot90ccw m2), false⟩
  | .redrawRequested => pure ⟨mat, some (rot90ccw mat), false⟩
  | .closeRequested => pure ⟨mat, none, true⟩
  | .otherEvent => pure ⟨mat, none, false⟩

/-! ## Helper lemmas about the bar encoder -/

theorem barFilledGen_of_nonpos (L : ℕ) (f : ℚ) (h : f ≤ 0) :
    barFilledGen L f = 0 := by
  unfold barFilledGen
  apply Int.toNat_of_nonpos
  apply Int.floor_nonpos
  have hL : (0 : ℚ) ≤ (L : ℚ) := Nat.cast_nonneg L
  nlinarith

theorem barFilledGen_le_of_le_one (L : ℕ) (f : ℚ) (h : f ≤ 1) :
    barFilledGen L f ≤ L := by
  unfold barFilledGen
  rw [Int.toNat_le]
  calc Int.floor ((L : ℚ) * f) ≤ Int.floor ((L : ℚ)) := by
        apply Int.floor_le_floor
        have hL : (0 : ℚ) ≤ (L : ℚ) := Nat.cast_nonneg L
        nlinarith
  _ = (L : ℤ) := Int.floor_natCast L

theorem barFilledGen_one (L : ℕ) : barFilledGen L 1 = L := by
  unfold barFilledGen
  rw [mul_one, Int.floor_natCast, Int.toNat_natCast]

theorem barFilledGen_zero (L : ℕ) : barFilledGen L 0 = 0 :=
  barFilledGen_of_nonpos L 0 le_rfl

theorem barFilledGen_ge_of_one_le (L : ℕ) (f : ℚ) (h : 1 ≤ f) :
    L ≤ barFilledGen L f := by
  unfold barFilledGen
  have hfl : (L : ℤ) ≤ Int.floor ((L : ℚ) * f) := by
    rw [Int.le_floor]
    push_cast
    have hL : (0 : ℚ) ≤ (L : ℚ) := Nat.cast_nonneg L
    nlinarith
  omega

theorem barGen_of_le (L : ℕ) (f : ℚ) (h : barFilledGen L f ≤ L) :
    barGen L f = fun c =>
      some (fun i => if i.val < barFilledGen L f then c else COLOR_BG) := by
  funext c
  unfold barGen
  simp [h]

/-! ## Claim theorems -/

/-- Claim C1, counterexample: the encoder does NOT clamp fractions above 1.
At `f = 3/2` (the example given in the spec itself) `floor(32 * 3/2) = 48 > 32` and the
slice `bar[48..]` panics, so `bar (3/2) c` is `none`, not `bar 1 c`; the
maximal parsed volume percentage `999/100` likewise panics instead
of producing a valid bar. -/
theorem bar_clamp_counterexample :
    bar (3/2) COLOR_OK = none ∧ bar 1 COLOR_OK ≠ none ∧
      volumeBar false 999 = none := by
  refine ⟨?_, ?_, ?_⟩
  · unfold bar barGen
    have h : barFilledGen BAR_LENGTH (3/2) = 48 := by
      unfold barFilledGen
      have hf : Int.floor (((BAR_LENGTH : ℕ) : ℚ) * (3/2)) = 48 := by
        have he : ((BAR_LENGTH : ℕ) : ℚ) * (3/2) = 48 := by norm_num
        rw [he]
        norm_num
      rw [hf]
      rfl
    rw [h]
    norm_num
  · unfold bar barGen
    rw [show barFilledGen BAR_LENGTH 1 = 32 from barFilledGen_one 32]
    rw [if_pos (by norm_num)]
    simp
  · unfold volumeBar bar barGen
    have h : barFilledGen BAR_LENGTH (((999 : ℕ) : ℚ) / 100) = 319 := by
      unfold barFilledGen
      have hf : Int.floor (((BAR_LENGTH : ℕ) : ℚ) * (((999 : ℕ) : ℚ) / 100)) = 319 := by
        rw [Int.floor_eq_iff]
        constructor
        · push_cast
          norm_num
        · push_cast
          norm_num
      rw [hf]
      rfl
    rw [h]
    norm_num

/-- Claim C1, amended: a fraction below 0 is saturated to a filled count of
0, so `bar f c = bar 0 c`; a fraction above 1 is NOT clamped: when
`floor(BAR_LENGTH * f) ≤ BAR_LENGTH` (i.e. `f < 33/32`) the result still
equals `bar 1 c`, but as soon as the filled count exceeds `BAR_LENGTH`
(any `f ≥ 33/32`, e.g. a parsed volume above 103%) the encoder panics
(`none`) instead of producing a bar. -/
theorem bar_clamp_amended (f : ℚ) (c : Rgba) :
    (f < 0 → bar f c = bar 0 c) ∧
    (1 < f → barFilled f ≤ BAR_LENGTH → bar f c = bar 1 c) ∧
    (BAR_LENGTH < barFilled f → bar f c = none) := by
  refine ⟨?_, ?_, ?_⟩
  · intro hf
    show barGen BAR_LENGTH f c = barGen BAR_LENGTH 0 c
    have h1 : barFilledGen BAR_LENGTH f = 0 := barFilledGen_of_nonpos _ f hf.le
    have h2 : barFilledGen BAR_LENGTH 0 = 0 := barFilledGen_zero _
    unfold barGen
    rw [h1, h2]
  · intro hf hle
    show barGen BAR_LENGTH f c = barGen BAR_LENGTH 1 c
    have hge : BAR_LENGTH ≤ barFilledGen BAR_LENGTH f :=
      barFilledGen_ge_of_one_le _ f hf.le
    have h1 : barFilledGen BAR_LENGTH f = BAR_LENGTH := le_antisymm hle hge
    have h2 : barFilledGen BAR_LENGTH 1 = BAR_LENGTH := barFilledGen_one _
    unfold barGen
    rw [h1, h2]
  · intro hgt
    show barGen BAR_LENGTH f c = none
    unfold barGen
    have : ¬ (barFilledGen BAR_LENGTH f ≤ BAR_LENGTH) := by
      exact not_le.mpr hgt
    simp [this]

/-- Witness for `bar_clamp_amended`: at `f = -1/5` the encoder behaves as
at `f = 0`. -/
theorem bar_clamp_amended_witness :
    bar (-1/5) COLOR_WARN = bar 0 COLOR_WARN :=
  (bar_clamp_amended (-1/5) COLOR_WARN).1 (by norm_num)

/-- Claim C9: for every fraction `f < 0` and fill color, `bar` succeeds and
equals `bar 0` (the all-background bar), because the negative product
`BAR_LENGTH * f` saturates to a filled count of 0; and `bar` succeeds for
every `f ≤ 1`. -/
theorem bar_safe (f : ℚ) (c : Rgba) :
    (f < 0 → bar f c = bar 0 c ∧ bar f c = some (fun _ => COLOR_BG)) ∧
    (f ≤ 1 → ∃ b, bar f c = some b) := by
  constructor
  · intro hf
    have h0 : barFilledGen BAR_LENGTH f = 0 := barFilledGen_of_nonpos _ f hf.le
    constructor
    · unfold bar barGen
      rw [h0, barFilledGen_zero]
    · unfold bar barGen
      rw [h0, if_pos (Nat.zero_le _)]
      simp
  · intro hf
    have hle : barFilledGen BAR_LENGTH f ≤ BAR_LENGTH :=
      barFilledGen_le_of_le_one _ f hf
    refine ⟨fun i => if i.val < barFilledGen BAR_LENGTH f then c else COLOR_BG, ?_⟩
    unfold bar barGen
    rw [if_pos hle]

/-- Witness for `bar_safe`: `bar (-3)` equals the all-background `bar 0`,
and `bar (1/4)` succeeds. -/
theorem bar_safe_witness :
    bar (-3) COLOR_OK = bar 0 COLOR_OK ∧ ∃ b, bar (1/4) COLOR_URGENT = some b :=
  ⟨((bar_safe (-3) COLOR_OK).1 (by norm_num)).1,
    (bar_safe (1/4) COLOR_URGENT).2 (by norm_num)⟩

/-- Claim C4: for `f` in `[0,1]` the encoder succeeds and fills exactly the
first `floor(L*f)` pixels with the fill color and the rest with the
background; `f = 1` fills all `L` pixels and `f = 0` fills none; and with
`L = BAR_LENGTH = 32`, `f = 1/2` and fill color `(10,140,108,255)`
(`COLOR_OK`), pixels 0-15 are that color and pixels 16-31 are the
background `(22,22,22,255)` (`COLOR_BG`). -/
theorem bar_fill_spec (L : ℕ) (f : ℚ) (c : Rgba) (h0 : 0 ≤ f) (h1 : f ≤ 1) :
    barGen L f c = some (fun i => if i.val < barFilledGen L f then c else COLOR_BG) ∧
    barFilledGen L 1 = L ∧ barFilledGen L 0 = 0 ∧
    ∀ i : Fin BAR_LENGTH,
      (bar (1/2) COLOR_OK).map (fun b => b i) =
        some (if i.val < 16 then (10, 140, 108, 255) else (22, 22, 22, 255)) := by
  have hle : barFilledGen L f ≤ L := barFilledGen_le_of_le_one L f h1
  refine ⟨?_, barFilledGen_one L, barFilledGen_zero L, ?_⟩
  · unfold barGen
    rw [if_pos hle]
  · have hhalf : bar (1/2) COLOR_OK =
        some (fun i => if i.val < 16 then COLOR_OK else COLOR_BG) := by
      unfold bar barGen
      have h : barFilledGen BAR_LENGTH (1/2) = 16 := by
        unfold barFilledGen
        have hf : Int.floor (((BAR_LENGTH : ℕ) : ℚ) * (1/2)) = 16 := by
          have he : ((BAR_LENGTH : ℕ) : ℚ) * (1/2) = 16 := by norm_num
          rw [he]
          norm_num
        rw [hf]
        rfl
      rw [h, if_pos (by norm_num)]
    intro i
    rw [hhalf]
    rfl

/-- Witness for `bar_fill_spec` at `L = 32`, `f = 1/2`, fill `COLOR_OK`. -/
theorem bar_fill_spec_witness :
    barGen 32 (1/2) COLOR_OK =
      some (fun i => if i.val < barFilledGen 32 (1/2) then COLOR_OK else COLOR_BG) :=
  (bar_fill_spec 32 (1/2) COLOR_OK (by norm_num) (by norm_num)).1

/-! ## Helper lemmas about the rotation stream -/

theorem flatMap_colstream_get {α : Type} (rows : ℕ) (m : ℕ → ℕ → α) :
    ∀ (ks : List ℕ) (j r : ℕ), r < rows → ∀ (hj : j < ks.length),
      (ks.flatMap fun k => (List.range rows).map fun row => m row k)[j * rows + r]? =
        some (m r (ks.get ⟨j, hj⟩)) := by
  intro ks
  induction ks with
  | nil =>
      intro j r hr hj
      simp at hj
  | cons k t ih =>
      intro j r hr hj
      rw [List.flatMap_cons]
      cases j with
      | zero =>
          rw [List.getElem?_append, if_pos (by simpa using hr)]
          rw [List.getElem?_map, List.getElem?_range (by simpa using hr)]
          simp
      | succ j2 =>
          have hlen : ((List.range rows).map fun row => m row k).length = rows := by
            simp
          rw [List.getElem?_append_right (by rw [hlen]; nlinarith)]
          rw [hlen]
          have hidx : (j2 + 1) * rows + r - rows = j2 * rows + r := by
            have : (j2 + 1) * rows = j2 * rows + rows := by ring
            omega
          rw [hidx]
          have hj2 : j2 < t.length := by
            simpa using hj
          rw [ih j2 r hr hj2]
          rfl

theorem rot90ccwGen_get {α : Type} (rows cols : ℕ) (mat : ℕ → ℕ → α)
    (r c : ℕ) (hr : r < rows) (hc : c < cols) :
    (rot90ccwGen rows cols mat)[(cols - 1 - c) * rows + r]? = some (mat r c) := by
  unfold rot90ccwGen
  have hlen : cols - 1 - c < ((List.range cols).reverse).length := by
    simp
    omega
  rw [flatMap_colstream_get rows mat _ (cols - 1 - c) r hr hlen]
  have hks : ((List.range cols).reverse).get ⟨cols - 1 - c, hlen⟩ = c := by
    rw [List.get_eq_getElem, List.getElem_reverse, List.getElem_range]
    simp
    omega
  rw [hks]

/-! ## Claim C2 -/

/-- Claim C2, counterexample: the end-to-end rotation example of the spec is
wrong about the colors.  For the 2-column, 4-row matrix with column 0 all
red (`COLOR_URGENT`) and column 1 all blue (`COLOR_NORMAL`), `rot90ccw`
produces the stream `[red, blue, red, blue, red, blue, red, blue]`: read
as a 4-row-by-2-column row-major buffer, every physical row is
`[red, blue]` — in particular physical pixel (0,0) is red — whereas the
claim requires every physical row to be `[blue, red]` (pixel (0,0)
blue). -/
theorem rot_example_counterexample :
    rot90ccwGen 2 4 exMat =
      [COLOR_URGENT, COLOR_NORMAL, COLOR_URGENT, COLOR_NORMAL,
       COLOR_URGENT, COLOR_NORMAL, COLOR_URGENT, COLOR_NORMAL] ∧
    (rot90ccwGen 2 4 exMat)[0]? = some COLOR_URGENT ∧
    COLOR_URGENT ≠ COLOR_NORMAL := by
  refine ⟨by decide, by decide, by decide⟩

/-- Claim C2, amended: for a matrix of `W` logical columns (bars) of `L`
pixels each, the rotated blit places the pixel of logical cell
(column `c`, row `r`) at `physical_row = L - 1 - r`, `physical_col = c`
(stream index `(L - 1 - r) * W + c` of the row-major physical buffer,
which is `L` rows by `W` columns) — the row index, not the column index,
is reversed; consequently the 2-column, 4-row red/blue example rotates to
a 4-row-by-2-column buffer whose every physical row is `[red, blue]`.
The second conjunct instantiates the mapping to the concrete
`rot90ccw : Matrix → List Rgba`. -/
theorem rot_mapping :
    (∀ (W L : ℕ) (mat : ℕ → ℕ → Rgba) (c r : ℕ), c < W → r < L →
      (rot90ccwGen W L mat)[(L - 1 - r) * W + c]? = some (mat c r)) ∧
    (∀ (mat : Matrix) (r : Fin REAL_WIDTH) (j : Fin BAR_LENGTH),
      (rot90ccw mat)[(BAR_LENGTH - 1 - j.val) * REAL_WIDTH + r.val]? = some (mat r j)) ∧
    (∀ p : ℕ, p < 4 →
      (rot90ccwGen 2 4 exMat)[p * 2]? = some COLOR_URGENT ∧
      (rot90ccwGen 2 4 exMat)[p * 2 + 1]? = some COLOR_NORMAL) := by
  refine ⟨?_, ?_, ?_⟩
  · intro W L mat c r hc hr
    exact rot90ccwGen_get W L mat c r hc hr
  · intro mat r j
    unfold rot90ccw
    rw [rot90ccwGen_get REAL_WIDTH BAR_LENGTH _ r.val j.val r.isLt j.isLt]
    rw [dif_pos ⟨r.isLt, j.isLt⟩]
  · intro p hp
    interval_cases p
    · exact ⟨by decide, by decide⟩
    · exact ⟨by decide, by decide⟩
    · exact ⟨by decide, by decide⟩
    · exact ⟨by decide, by decide⟩

/-- Witness for `rot_mapping`: cell (column 0, row 0) of the example
matrix lands at stream index `(4 - 1 - 0) * 2 + 0 = 6`. -/
theorem rot_mapping_witness :
    (rot90ccwGen 2 4 exMat)[(4 - 1 - 0) * 2 + 0]? = some (exMat 0 0) :=
  rot_mapping.1 2 4 exMat 0 0 (by norm_num) (by norm_num)

/-! ## Claim C6 -/

/-- Claim C6, counterexample: the composite-bar buffer is initialised to
the zero pixel `[0; 4]`, not to the background color.  Pixel 10 — covered
by no override (wifi covers `[0,10)`, mic `[19,25)`, bluetooth
`[26,32)`) — is `(0,0,0,0)`, which differs from `COLOR_BG =
(22,22,22,255)`. -/
theorem compositeBar_counterexample :
    compositeBar COLOR_NORMAL COLOR_OK COLOR_URGENT ⟨10, by decide⟩ = ZERO_RGBA ∧
    ZERO_RGBA ≠ COLOR_BG := by
  refine ⟨by decide, by decide⟩

/-- Claim C6, amended: the composite bar applies its ordered
`(pixel-range, color)` overrides — wifi `[0,10)`, then bluetooth
`[26,32)`, then mic `[19,25)`, later fills winning on overlap — onto a
bar initialised entirely to the zero pixel `(0,0,0,0)` (not the background
color); every pixel not covered by any override equals that zero pixel in
the result. -/
theorem compositeBar_spec (w bt mc : Rgba) (i : Fin BAR_LENGTH) :
    (i.val < WIFI_LENGTH → compositeBar w bt mc i = w) ∧
    (BAR_LENGTH - BT_LENGTH - MIC_LENGTH - 1 ≤ i.val →
      i.val < BAR_LENGTH - BT_LENGTH - 1 → compositeBar w bt mc i = mc) ∧
    (BAR_LENGTH - BT_LENGTH ≤ i.val → compositeBar w bt mc i = bt) ∧
    ((WIFI_LENGTH ≤ i.val ∧ i.val < BAR_LENGTH - BT_LENGTH - MIC_LENGTH - 1) ∨
        i.val = BAR_LENGTH - BT_LENGTH - 1 →
      compositeBar w bt mc i = ZERO_RGBA) := by
  have hlt := i.isLt
  refine ⟨?_, ?_, ?_, ?_⟩
  · intro h
    unfold compositeBar fillRange
    split_ifs
    all_goals first
      | rfl
      | ((exfalso
          norm_num [BAR_LENGTH, BT_LENGTH, MIC_LENGTH, WIFI_LENGTH, INNER_HEIGHT,
            SCALE_FACTOR, BAR_THICKNESS] at *) <;> omega)
  · intro h1 h2
    unfold compositeBar fillRange
    split_ifs
    all_goals first
      | rfl
      | ((exfalso
          norm_num [BAR_LENGTH, BT_LENGTH, MIC_LENGTH, WIFI_LENGTH, INNER_HEIGHT,
            SCALE_FACTOR, BAR_THICKNESS] at *) <;> omega)
  · intro h
    unfold compositeBar fillRange
    split_ifs
    all_goals first
      | rfl
      | ((exfalso
          norm_num [BAR_LENGTH, BT_LENGTH, MIC_LENGTH, WIFI_LENGTH, INNER_HEIGHT,
            SCALE_FACTOR, BAR_THICKNESS] at *) <;> omega)
  · intro h
    unfold compositeBar fillRange
    split_ifs
    all_goals first
      | rfl
      | ((exfalso
          norm_num [BAR_LENGTH, BT_LENGTH, MIC_LENGTH, WIFI_LENGTH, INNER_HEIGHT,
            SCALE_FACTOR, BAR_THICKNESS] at *) <;> omega)

/-- Witness for `compositeBar_spec`: pixel 0 of a concrete composite bar
carries the wifi color. -/
theorem compositeBar_spec_witness :
    compositeBar COLOR_OK COLOR_WARN COLOR_MUTE ⟨0, by decide⟩ = COLOR_OK :=
  (compositeBar_spec COLOR_OK COLOR_WARN COLOR_MUTE ⟨0, by decide⟩).1 (by decide)

/-! ## Helper lemmas about `placeBars` and `refresh` -/

theorem placeBars_eq (bars : Fin N_BARS → Bar) (mat : Matrix) :
    placeBars bars mat =
      fillRows (fillRows (fillRows mat 0 3 (bars ⟨0, by norm_num⟩))
        4 7 (bars ⟨1, by norm_num⟩)) 8 11 (bars ⟨2, by norm_num⟩) := rfl

theorem placeBars_apply_bar (bars : Fin N_BARS → Bar) (mat : Matrix)
    (r : Fin REAL_WIDTH) (iv j : ℕ) (hiv : iv < N_BARS)
    (hj : j < BAR_GIRTH - 1) (hr : r.val = iv * BAR_GIRTH + j) :
    placeBars bars mat r = bars ⟨iv, hiv⟩ := by
  rw [placeBars_eq]
  unfold fillRows
  have hg : BAR_GIRTH = 4 := rfl
  have hn : N_BARS = 3 := rfl
  rw [hg] at hr hj
  rw [hn] at hiv
  interval_cases iv
  all_goals split_ifs
  all_goals first
    | rfl
    | (exfalso; omega)

theorem placeBars_apply_other (bars : Fin N_BARS → Bar) (mat : Matrix)
    (r : Fin REAL_WIDTH)
    (h : r.val % BAR_GIRTH = BAR_GIRTH - 1 ∨ N_BARS * BAR_GIRTH ≤ r.val) :
    placeBars bars mat r = mat r := by
  rw [placeBars_eq]
  unfold fillRows
  have hg : BAR_GIRTH = 4 := rfl
  have hn : N_BARS = 3 := rfl
  rw [hg, hn] at h
  split_ifs
  all_goals first
    | rfl
    | (exfalso; omega)

theorem refresh_ok (w bt mc : Rgba) (vol batt : Bar) (mat : Matrix) :
    refresh ⟨Except.ok w, Except.ok bt, Except.ok mc, Except.ok vol, Except.ok batt⟩ mat =
      Except.ok (placeBars (barsOf (compositeBar w bt mc) vol batt) mat) := rfl

/-! ## Claim C3 -/

/-- Claim C3, counterexample: a refresh in which exactly one sampler (the
battery one) fails does NOT complete — `refresh` aborts with the battery
error (the `battery().expect("Failed to read battery info")`
panic in the source) and composes no Matrix at all, instead of substituting a fallback
sample. -/
theorem refresh_failure_counterexample :
    refresh samplersBatteryFail initialMatrix =
      Except.error "Failed to read battery info" := rfl

/-- Claim C3, amended: sampler failures are NOT recovered locally: a
refresh composes a Matrix exactly when every one of the five sampler calls
succeeds, and any single sampler failure aborts the whole refresh (a
panic in the source), producing no Matrix — there is no fallback sample. -/
theorem refresh_abort_on_failure (s : Samplers) (mat : Matrix) :
    (∃ M, refresh s mat = Except.ok M) ↔
      ((∃ v, s.wifi = Except.ok v) ∧ (∃ v, s.bluetooth = Except.ok v) ∧
        (∃ v, s.mic = Except.ok v) ∧ (∃ v, s.volume = Except.ok v) ∧
        (∃ v, s.battery = Except.ok v)) := by
  obtain ⟨w, bt, mc, vol, batt⟩ := s
  cases w <;> cases bt <;> cases mc <;> cases vol <;> cases batt <;>
    simp [refresh, Except.instMonad, Except.bind, Except.pure]

/-- Witness for `refresh_abort_on_failure`: with all five samplers
succeeding, the refresh composes a Matrix. -/
theorem refresh_abort_on_failure_witness :
    ∃ M, refresh samplersDistinct initialMatrix = Except.ok M :=
  (refresh_abort_on_failure samplersDistinct initialMatrix).mpr
    ⟨⟨_, rfl⟩, ⟨_, rfl⟩, ⟨_, rfl⟩, ⟨_, rfl⟩, ⟨_, rfl⟩⟩

/-! ## Claim C5 -/

/-- Claim C5, counterexample: the battery bar is NOT in the lowest-index
run of columns.  With wifi color `COLOR_OK` and a battery bar constantly
`COLOR_WARN`, the composed matrix has `COLOR_OK` (the wifi segment of the
composite bar) at row 0, pixel 0 — not the battery color, which appears at row 8
(the highest-index run). -/
theorem refresh_order_counterexample :
    (refresh samplersDistinct initialMatrix).toOption.map
        (fun M => (M ⟨0, by decide⟩ ⟨0, by decide⟩, M ⟨8, by decide⟩ ⟨0, by decide⟩)) =
      some (COLOR_OK, COLOR_WARN) ∧
    COLOR_OK ≠ COLOR_WARN := by
  refine ⟨by decide, by decide⟩

/-- Claim C5, amended: the indicator-to-column assignment is the fixed
order composite (wifi/bluetooth/mic), volume, battery — the composite bar
in the lowest-index run of columns, then volume, then battery — and it is
identical across all refreshes (`refresh` is a pure function of the
sampler outcomes and prior matrix; every successful refresh places the
bars this way). -/
theorem refresh_order (w bt mc : Rgba) (vol batt : Bar) (mat M : Matrix)
    (h : refresh ⟨Except.ok w, Except.ok bt, Except.ok mc, Except.ok vol, Except.ok batt⟩ mat
      = Except.ok M) :
    ∀ r : Fin REAL_WIDTH,
      (r.val < BAR_GIRTH - 1 → M r = compositeBar w bt mc) ∧
      (BAR_GIRTH ≤ r.val → r.val < 2 * BAR_GIRTH - 1 → M r = vol) ∧
      (2 * BAR_GIRTH ≤ r.val → r.val < 3 * BAR_GIRTH - 1 → M r = batt) := by
  rw [refresh_ok] at h
  injection h with h
  subst h
  intro r
  refine ⟨?_, ?_, ?_⟩
  · intro h1
    exact (placeBars_apply_bar _ _ r 0 r.val (by norm_num) h1 (by omega)).trans rfl
  · intro h1 h2
    exact (placeBars_apply_bar _ _ r 1 (r.val - BAR_GIRTH) (by norm_num)
      (by omega) (by omega)).trans rfl
  · intro h1 h2
    exact (placeBars_apply_bar _ _ r 2 (r.val - 2 * BAR_GIRTH) (by norm_num)
      (by omega) (by omega)).trans rfl

/-- Witness for `refresh_order`: row 0 of a concrete successful refresh is
the composite bar. -/
theorem refresh_order_witness :
    placeBars (barsOf (compositeBar COLOR_OK COLOR_NORMAL COLOR_BG)
        (fun _ => COLOR_MUTE) (fun _ => COLOR_WARN)) initialMatrix ⟨0, by decide⟩ =
      compositeBar COLOR_OK COLOR_NORMAL COLOR_BG :=
  ((refresh_order COLOR_OK COLOR_NORMAL COLOR_BG (fun _ => COLOR_MUTE) (fun _ => COLOR_WARN)
      initialMatrix _ rfl) ⟨0, by decide⟩).1 (by decide)

/-! ## Claim C7 -/

/-- Claim C7, counterexample: the gutter column of each indicator run is at
the HIGH-index edge, not the low-index edge.  Refreshing a sentinel-valued
matrix with wifi color `COLOR_WARN`, row 0 (the low-index edge of the
first run) is overwritten with the wifi pixel of the composite bar
`COLOR_WARN` — it is not left at the margin/background value — while
row 3 (the high-index edge) retains the sentinel `(9,9,9,9)`. -/
theorem refresh_gutter_counterexample :
    (refresh samplersDistinctB matNines).toOption.map
        (fun M => (M ⟨0, by decide⟩ ⟨0, by decide⟩, M ⟨3, by decide⟩ ⟨0, by decide⟩)) =
      some (COLOR_WARN, (9, 9, 9, 9)) ∧
    COLOR_WARN ≠ COLOR_BG ∧ COLOR_WARN ≠ (9, 9, 9, 9) ∧ COLOR_WARN ≠ ZERO_RGBA := by
  refine ⟨by decide, by decide, by decide, by decide⟩

/-- Claim C7, amended: in every composed Matrix, indicator `i` occupies
the contiguous run of rows `[i*BAR_GIRTH, (i+1)*BAR_GIRTH)` minus one
column reserved as a visual gutter at the HIGH-index edge of its run (its
last row, offset `BAR_GIRTH - 1`), and that gutter column is left at its
prior (initially zero/margin) value. -/
theorem refresh_gutter (w bt mc : Rgba) (vol batt : Bar) (mat M : Matrix)
    (h : refresh ⟨Except.ok w, Except.ok bt, Except.ok mc, Except.ok vol, Except.ok batt⟩ mat
      = Except.ok M) :
    ∀ i : Fin N_BARS, ∀ j : ℕ, ∀ hj : i.val * BAR_GIRTH + j < REAL_WIDTH,
      (j < BAR_GIRTH - 1 →
        M ⟨i.val * BAR_GIRTH + j, hj⟩ = barsOf (compositeBar w bt mc) vol batt i) ∧
      (j = BAR_GIRTH - 1 →
        M ⟨i.val * BAR_GIRTH + j, hj⟩ = mat ⟨i.val * BAR_GIRTH + j, hj⟩) := by
  rw [refresh_ok] at h
  injection h with h
  subst h
  intro i j hj
  constructor
  · intro hjlt
    exact placeBars_apply_bar _ _ _ i.val j i.isLt hjlt rfl
  · intro hje
    apply placeBars_apply_other
    left
    show (i.val * BAR_GIRTH + j) % BAR_GIRTH = BAR_GIRTH - 1
    have hg : BAR_GIRTH = 4 := rfl
    rw [hg] at hje ⊢
    omega

/-- Witness for `refresh_gutter`: in a concrete successful refresh over a
sentinel matrix, the high-index gutter row of the first run keeps its prior
value. -/
theorem refresh_gutter_witness :
    placeBars (barsOf (compositeBar COLOR_WARN COLOR_MUTE COLOR_URGENT)
        (fun _ => COLOR_OK) (fun _ => COLOR_NORMAL)) matNines ⟨0 * BAR_GIRTH + 3, by decide⟩ =
      matNines ⟨0 * BAR_GIRTH + 3, by decide⟩ :=
  ((refresh_gutter COLOR_WARN COLOR_MUTE COLOR_URGENT (fun _ => COLOR_OK)
      (fun _ => COLOR_NORMAL) matNines _ rfl) ⟨0, by decide⟩ 3 (by decide)).2 (by decide)

/-! ## Claim C10 -/

/-- Claim C10: every successful refresh leaves unchanged all Matrix rows
outside the filled indicator runs: each bar `i` only writes rows
`[i*BAR_GIRTH, i*BAR_GIRTH + BAR_GIRTH - 1)`, so the last row of each
girth group (`r % BAR_GIRTH = BAR_GIRTH - 1`) and all rows from
`N_BARS * BAR_GIRTH` to `REAL_WIDTH - 1` (the margin region) retain their
prior pixel values. -/
theorem refresh_untouched_rows (s : Samplers) (mat M : Matrix)
    (h : refresh s mat = Except.ok M) :
    ∀ r : Fin REAL_WIDTH,
      r.val % BAR_GIRTH = BAR_GIRTH - 1 ∨ N_BARS * BAR_GIRTH ≤ r.val → M r = mat r := by
  obtain ⟨w, bt, mc, vol, batt⟩ := s
  cases w with
  | error e =>
      rw [show refresh ⟨Except.error e, bt, mc, vol, batt⟩ mat = Except.error e from rfl] at h
      exact Except.noConfusion h
  | ok w =>
  cases bt with
  | error e =>
      rw [show refresh ⟨Except.ok w, Except.error e, mc, vol, batt⟩ mat
        = Except.error e from rfl] at h
      exact Except.noConfusion h
  | ok bt =>
  cases mc with
  | error e =>
      rw [show refresh ⟨Except.ok w, Except.ok bt, Except.error e, vol, batt⟩ mat
        = Except.error e from rfl] at h
      exact Except.noConfusion h
  | ok mc =>
  cases vol with
  | error e =>
      rw [show refresh ⟨Except.ok w, Except.ok bt, Except.ok mc, Except.error e, batt⟩ mat
        = Except.error e from rfl] at h
      exact Except.noConfusion h
  | ok vol =>
  cases batt with
  | error e =>
      rw [show refresh ⟨Except.ok w, Except.ok bt, Except.ok mc, Except.ok vol, Except.error e⟩
        mat = Except.error e from rfl] at h
      exact Except.noConfusion h
  | ok batt =>
      rw [refresh_ok] at h
      injection h with h
      subst h
      intro r hr
      exact placeBars_apply_other _ _ r hr

/-- Witness for `refresh_untouched_rows`: row 12 (the start of the margin
region) of a concrete successful refresh keeps its prior sentinel
value. -/
theorem refresh_untouched_rows_witness :
    placeBars (barsOf (compositeBar COLOR_OK COLOR_NORMAL COLOR_BG)
        (fun _ => COLOR_MUTE) (fun _ => COLOR_WARN)) matNines ⟨12, by decide⟩ =
      matNines ⟨12, by decide⟩ :=
  refresh_untouched_rows samplersDistinct matNines _ rfl ⟨12, by decide⟩ (by decide)

/-! ## Claim C8 -/

/-- Claim C8: handling an external redraw-requested event blits and
presents the current Matrix without re-sampling: the matrix in the result
equals the input matrix, the presented frame is the rotated blit of that
same matrix, and no sampler is invoked — the outcome is identical for any
two sampler assignments. -/
theorem redraw_no_resample (s s2 : Samplers) (mat : Matrix) :
    handleEvent s LoopEvent.redrawRequested mat =
      Except.ok ⟨mat, some (rot90ccw mat), false⟩ ∧
    handleEvent s LoopEvent.redrawRequested mat =
      handleEvent s2 LoopEvent.redrawRequested mat :=
  ⟨rfl, rfl⟩

end Sema
